import Mathlib

/-!
Shallow embedding of the post service layer of the prisma-blog-application
server (src/modules/post/post.service.ts).  The Prisma database is modelled
as lists of records; every service function is a pure function over that
state, with `Except String` standing for thrown errors and explicit state
passing standing for committed writes.  A `$transaction` that throws commits
nothing, which the embedding renders by returning `.error` without a new
state (see `getPostByIdRun`).
-/

namespace BlogApp

/-- Post.status enum; the source spells the draft constructor DTAFT
(`PostStatus.DTAFT` in getStats). -/
inductive PostStatus where
  | DTAFT
  | PUBLISHED
  | ARCHIVED
deriving DecidableEq

/-- Comment.status enum (`CommentStatus.APPROVED` is the one the service
uses; PENDING/REJECT are the moderation states). -/
inductive CommentStatus where
  | PENDING
  | APPROVED
  | REJECT
deriving DecidableEq

/-- User.role enum. -/
inductive UserRole where
  | USER
  | ADMIN
deriving DecidableEq

/-- User.status enum; getMyPosts filters on the literal "ACTIVE". -/
inductive UserStatus where
  | ACTIVE
  | BLOCKED
deriving DecidableEq

/-- The Post model as the service layer uses it.  `createdAt`/`updatedAt`
are abstracted to naturals (timestamps only ever compared / sorted). -/
structure Post where
  id : String
  title : String
  content : String
  tags : List String
  status : PostStatus
  isFeatured : Bool
  views : Nat
  authorId : String
  createdAt : Nat
  updatedAt : Nat
deriving DecidableEq

/-- The Comment model: `parentId = none` means a top-level comment. -/
structure Comment where
  id : String
  content : String
  status : CommentStatus
  postId : String
  authorId : String
  parentId : Option String
  createdAt : Nat
deriving DecidableEq

/-- The User model (referenced by getMyPosts). -/
structure User where
  id : String
  role : UserRole
  status : UserStatus
deriving DecidableEq

/-- The database state the service functions read and write. -/
structure DB where
  posts : List Post
  comments : List Comment
  users : List User
deriving DecidableEq

/-! ### createPost -/

/-- The type `Omit<Post, "id" | "createdAt" | "updatedAt" | "authorId">`: the client
payload of createPost. -/
structure PostCreateInput where
  title : String
  content : String
  tags : List String
  status : PostStatus
  isFeatured : Bool
  views : Nat
deriving DecidableEq

/-- Embeds `createPost(data, userId)`: spreads the payload and then sets
`authorId: userId`; Prisma supplies the fresh id and the timestamps. -/
def createPost (data : PostCreateInput) (userId : String)
    (freshId : String) (now : Nat) (db : DB) : Post × DB :=
  let result : Post :=
    { id := freshId
      title := data.title
      content := data.content
      tags := data.tags
      status := data.status
      isFeatured := data.isFeatured
      views := data.views
      authorId := userId
      createdAt := now
      updatedAt := now }
  (result, { db with posts := db.posts ++ [result] })

/-! ### getAllPost -/

/-- Case-insensitive substring test: `contains` with `mode: "insensitive"`. -/
def hasSubstr (needle : List Char) : List Char → Bool
  | [] => needle.isPrefixOf []
  | c :: rest => needle.isPrefixOf (c :: rest) || hasSubstr needle rest

/-- Embeds a `contains` condition with `mode: "insensitive"` on a string field. -/
def containsCI (field search : String) : Bool :=
  hasSubstr search.toLower.data field.toLower.data

/-- The query parameters of getAllPost. -/
structure GetAllPostParams where
  search : Option String
  tags : List String
  isFeatured : Option Bool
  status : Option PostStatus
  authorId : Option String
  page : Nat
  limit : Nat
  skip : Nat
  sortBy : String
  sortOrder : String

/-- The OR block pushed for a (truthy) search string: case-insensitive
substring on title, case-insensitive substring on content, or
`tags: { has: search }` (exact element). -/
def searchCond (search : String) (p : Post) : Bool :=
  containsCI p.title search || containsCI p.content search ||
    decide (search ∈ p.tags)

/-- The `andConditions` array: one predicate per active filter, in source
order.  JS truthiness makes an empty search / authorId string inactive. -/
def andConditions (q : GetAllPostParams) : List (Post → Bool) :=
  let searchConds : List (Post → Bool) :=
    match q.search with
    | some s => if s.isEmpty then [] else [searchCond s]
    | none => []
  let tagConds : List (Post → Bool) :=
    if q.tags.length > 0 then
      [fun p => q.tags.all (fun t => decide (t ∈ p.tags))]
    else []
  let featuredConds : List (Post → Bool) :=
    match q.isFeatured with
    | some b => [fun p => decide (p.isFeatured = b)]
    | none => []
  let statusConds : List (Post → Bool) :=
    match q.status with
    | some st => [fun p => decide (p.status = st)]
    | none => []
  let authorConds : List (Post → Bool) :=
    match q.authorId with
    | some a => if a.isEmpty then [] else [fun p => decide (p.authorId = a)]
    | none => []
  searchConds ++ tagConds ++ featuredConds ++ statusConds ++ authorConds

/-- The whole filter: an AND over `andConditions`. -/
def postWhere (q : GetAllPostParams) (p : Post) : Bool :=
  (andConditions q).all (fun cond => cond p)

/-- The dynamic `orderBy` clause on sortBy / sortOrder, reduced to a boolean comparator on
the sortable fields the model carries; an unknown field imposes no order. -/
def postLe (sortBy sortOrder : String) (a b : Post) : Bool :=
  let asc : Bool :=
    if sortBy = "createdAt" then decide (a.createdAt ≤ b.createdAt)
    else if sortBy = "updatedAt" then decide (a.updatedAt ≤ b.updatedAt)
    else if sortBy = "views" then decide (a.views ≤ b.views)
    else if sortBy = "title" then decide (a.title ≤ b.title)
    else true
  if sortOrder = "desc" then !asc || decide (a = b) else asc

/-- Embeds `Math.ceil(total / limit)` on the naturals the service feeds it
(exact for `limit > 0`; JS division by zero has no natural counterpart). -/
def jsCeilDiv (total limit : Nat) : Nat :=
  (total + limit - 1) / limit

/-- The `{ total, page, limit, totalPages }` object. -/
structure Pagination where
  total : Nat
  page : Nat
  limit : Nat
  totalPages : Nat
deriving DecidableEq

/-- Return shape of getAllPost. -/
structure GetAllPostResult where
  data : List Post
  pagination : Pagination

/-- Embeds `getAllPost`: findMany with the AND filter, sort, skip and take, then a
separate count over the identical filter. -/
def getAllPost (q : GetAllPostParams) (db : DB) : GetAllPostResult :=
  let filtered := db.posts.filter (postWhere q)
  let allPost :=
    ((filtered.mergeSort (postLe q.sortBy q.sortOrder)).drop q.skip).take
      q.limit
  let total := filtered.length
  { data := allPost
    pagination :=
      { total := total
        page := q.page
        limit := q.limit
        totalPages := jsCeilDiv total q.limit } }

/-! ### getPostById -/

/-- An approved reply together with its approved replies (third level). -/
structure ReplyNode where
  comment : Comment
  replies : List Comment
deriving DecidableEq

/-- An approved top-level comment with its nested approved replies. -/
structure TopNode where
  comment : Comment
  replies : List ReplyNode
deriving DecidableEq

/-- Return shape of getPostById: the post row, the included comment tree
and `_count.comments` (all statuses). -/
structure PostDetail where
  post : Post
  comments : List TopNode
  commentsCount : Nat
deriving DecidableEq

/-- The approved children of a comment, ordered `createdAt: "asc"`
(the `replies` include at both nesting levels). -/
def approvedReplies (parentId : String) (cs : List Comment) : List Comment :=
  (cs.filter (fun c =>
      decide (c.parentId = some parentId) &&
        decide (c.status = CommentStatus.APPROVED))).mergeSort
    (fun a b => decide (a.createdAt ≤ b.createdAt))

/-- The approved top-level comments of a post, ordered
`createdAt: "desc"` (the outer `comments` include). -/
def topComments (postId : String) (cs : List Comment) : List Comment :=
  (cs.filter (fun c =>
      decide (c.postId = postId) && decide (c.parentId = none) &&
        decide (c.status = CommentStatus.APPROVED))).mergeSort
    (fun a b => decide (b.createdAt ≤ a.createdAt))

/-- The included comment tree: approved top-level comments newest-first,
each with two levels of approved replies oldest-first. -/
def commentTree (postId : String) (cs : List Comment) : List TopNode :=
  (topComments postId cs).map
    (fun t =>
      { comment := t
        replies := (approvedReplies t.id cs).map
          (fun r => { comment := r, replies := approvedReplies r.id cs }) })

/-- Every comment occurring anywhere in a returned comment tree (the three
nesting levels flattened). -/
def treeNodes (ts : List TopNode) : List Comment :=
  ts.flatMap (fun t =>
    t.comment :: t.replies.flatMap (fun r => r.comment :: r.replies))

/-- Membership of `d` in the subtree below `c`: the `parentId` chain of
`d` reaches `c` through comments of the store, at any depth. -/
inductive Descendant (cs : List Comment) : Comment → Comment → Prop
  | direct (d c : Comment) (hd : d ∈ cs) (hp : d.parentId = some c.id) :
      Descendant cs d c
  | step (d e c : Comment) (hd : d ∈ cs) (he : e ∈ cs)
      (hp : d.parentId = some e.id) (hrest : Descendant cs e c) :
      Descendant cs d c

/-- The view bump: `update` on the id with `views: increment 1`;
fails (P2025) when no row matches, otherwise bumps the matching row. -/
def incrementViews (postId : String) (db : DB) : Except String DB :=
  if db.posts.any (fun p => decide (p.id = postId)) then
    .ok { db with
      posts := db.posts.map (fun p =>
        if p.id = postId then { p with views := p.views + 1 } else p) }
  else .error "Record to update not found."

/-- The `$transaction` body of getPostById: increment the view counter,
then findUnique the post with the comment tree and the comment count. -/
def getPostById (postId : String) (db : DB) :
    Except String (PostDetail × DB) :=
  match incrementViews postId db with
  | .error e => .error e
  | .ok db1 =>
    match db1.posts.find? (fun p => decide (p.id = postId)) with
    | none => .error "Record not found."
    | some postData =>
      .ok
        ({ post := postData
           comments := commentTree postId db1.comments
           commentsCount :=
             (db1.comments.filter (fun c => decide (c.postId = postId))).length },
          db1)

/-- The `$transaction` wrapper around getPostById: a thrown error rolls the
whole transaction back, leaving the database unchanged. -/
def getPostByIdRun (postId : String) (db : DB) :
    Except String PostDetail × DB :=
  match getPostById postId db with
  | .ok (detail, db1) => (.ok detail, db1)
  | .error e => (.error e, db)

/-! ### getMyPosts -/

/-- Return shape of getMyPosts: posts each with `_count.comments`, plus the
aggregate `_count.id` of the author's posts. -/
structure GetMyPostsResult where
  data : List (Post × Nat)
  total : Nat
deriving DecidableEq

/-- Embeds `getMyPosts`: findUniqueOrThrow on the id with status ACTIVE,
then the author's posts newest-first with comment counts and an aggregate
count. -/
def getMyPosts (authorId : String) (db : DB) :
    Except String GetMyPostsResult :=
  match db.users.find? (fun u =>
      decide (u.id = authorId) && decide (u.status = UserStatus.ACTIVE)) with
  | none => .error "No User found"
  | some _ =>
    let result :=
      ((db.posts.filter (fun p => decide (p.authorId = authorId))).mergeSort
          (fun a b => decide (b.createdAt ≤ a.createdAt))).map
        (fun p =>
          (p, (db.comments.filter (fun c => decide (c.postId = p.id))).length))
    let total :=
      (db.posts.filter (fun p => decide (p.authorId = authorId))).length
    .ok { data := result, total := total }

/-! ### updatePost / deletePost -/

/-- The type `Partial<Post>`: every Post column optional, exactly as the TypeScript
type admits — including `authorId`, `id` and the timestamps. -/
structure PostUpdateInput where
  id : Option String := none
  title : Option String := none
  content : Option String := none
  tags : Option (List String) := none
  status : Option PostStatus := none
  isFeatured : Option Bool := none
  views : Option Nat := none
  authorId : Option String := none
  createdAt : Option Nat := none
  updatedAt : Option Nat := none
deriving DecidableEq

/-- The write `prisma.post.update` performs: each present field overwrites the
column, absent fields are left alone. -/
def applyUpdate (data : PostUpdateInput) (p : Post) : Post :=
  { id := data.id.getD p.id
    title := data.title.getD p.title
    content := data.content.getD p.content
    tags := data.tags.getD p.tags
    status := data.status.getD p.status
    isFeatured := data.isFeatured.getD p.isFeatured
    views := data.views.getD p.views
    authorId := data.authorId.getD p.authorId
    createdAt := data.createdAt.getD p.createdAt
    updatedAt := data.updatedAt.getD p.updatedAt }

/-- Embeds `updatePost(postId, data, authorId, isAdmin)`: findUniqueOrThrow, owner
or admin check, `delete data.isFeatured` for non-admins, then the update. -/
def updatePost (postId : String) (data : PostUpdateInput)
    (authorId : String) (isAdmin : Bool) (db : DB) :
    Except String (Post × DB) :=
  match db.posts.find? (fun p => decide (p.id = postId)) with
  | none => .error "No Post found"
  | some postData =>
    if !isAdmin && !(decide (postData.authorId = authorId)) then
      .error "You are not the owner/creator of the post!"
    else
      let data := if !isAdmin then { data with isFeatured := none } else data
      let result := applyUpdate data postData
      .ok
        (result,
          { db with
            posts := db.posts.map (fun p =>
              if p.id = postData.id then applyUpdate data p else p) })

/-- Embeds `deletePost(postId, authorId, isAdmin)`: findUniqueOrThrow, owner or
admin check, then a hard delete returning the removed row. -/
def deletePost (postId : String) (authorId : String) (isAdmin : Bool)
    (db : DB) : Except String (Post × DB) :=
  match db.posts.find? (fun p => decide (p.id = postId)) with
  | none => .error "No Post found"
  | some postData =>
    if !isAdmin && !(decide (postData.authorId = authorId)) then
      .error "You are not the owner/creator of the post!"
    else
      .ok
        (postData,
          { db with
            posts := db.posts.filter (fun p => !(decide (p.id = postId))) })

/-! ### Concrete sample data used to instantiate the theorems -/

/-- A sample post authored by alice. -/
def alicePost : Post :=
  { id := "p1", title := "Hello", content := "World", tags := ["a", "b"]
    status := .PUBLISHED, isFeatured := false, views := 5
    authorId := "alice", createdAt := 10, updatedAt := 10 }

/-- A sample database holding only `alicePost`. -/
def aliceDB : DB := { posts := [alicePost], comments := [], users := [] }

/-- Projects the updated row out of an updatePost / deletePost result. -/
def okPost : Except String (Post × DB) → Option Post
  | .ok (r, _) => some r
  | .error _ => none

/-! ### Theorems -/

theorem applyUpdate_authorId_of_none {data : PostUpdateInput}
    (h : data.authorId = none) (p : Post) :
    (applyUpdate data p).authorId = p.authorId := by
  simp [applyUpdate, h]

/-- C1 (amended): createPost persists `authorId = userId` regardless of the
payload, and updatePost leaves every post's authorId unchanged whenever the
update payload's `authorId` field is absent; a `Partial<Post>` payload that
does carry an `authorId` field overwrites it (see the counterexample). -/
theorem c1_authorId_server_side (data : PostCreateInput)
    (userId freshId : String) (now : Nat) (db : DB) (postId : String)
    (u : PostUpdateInput) (caller : String) (isAdmin : Bool)
    (hu : u.authorId = none) :
    (createPost data userId freshId now db).1.authorId = userId ∧
    (∀ r db1, updatePost postId u caller isAdmin db = .ok (r, db1) →
      db1.posts.map Post.authorId = db.posts.map Post.authorId ∧
      ∃ p0, db.posts.find? (fun p => decide (p.id = postId)) = some p0 ∧
        r.authorId = p0.authorId) := by
  constructor
  · rfl
  · intro r db1 hok
    unfold updatePost at hok
    split at hok
    next => exact absurd hok (by simp)
    next postData hfind =>
      split at hok
      next => exact absurd hok (by simp)
      next hown =>
        simp only [Except.ok.injEq, Prod.mk.injEq] at hok
        obtain ⟨hr, hdb⟩ := hok
        have hnone :
            (if !isAdmin then { u with isFeatured := none } else u).authorId
              = none := by
          cases isAdmin <;> simp [hu]
        refine ⟨?_, postData, hfind, ?_⟩
        · rw [← hdb]
          simp only [List.map_map]
          refine List.map_congr_left ?_
          intro p _
          simp only [Function.comp_apply]
          by_cases hp : p.id = postData.id
          · rw [if_pos hp, applyUpdate_authorId_of_none hnone]
          · rw [if_neg hp]
        · rw [← hr, applyUpdate_authorId_of_none hnone]

/-- C1 witness: the amended statement instantiated on `aliceDB` with a
payload that does not mention authorId. -/
theorem c1_authorId_server_side_witness :
    (createPost ⟨"T", "C", [], .DTAFT, true, 0⟩ "alice" "p2" 11 aliceDB).1.authorId
        = "alice" ∧
    (∀ r db1,
      updatePost "p1" { title := some "New" } "alice" false aliceDB
        = .ok (r, db1) →
      db1.posts.map Post.authorId = aliceDB.posts.map Post.authorId ∧
      ∃ p0, aliceDB.posts.find? (fun p => decide (p.id = "p1")) = some p0 ∧
        r.authorId = p0.authorId) :=
  c1_authorId_server_side ⟨"T", "C", [], .DTAFT, true, 0⟩ "alice" "p2" 11
    aliceDB "p1" { title := some "New" } "alice" false rfl

/-- C1 counterexample: an updatePost payload carrying `authorId` (admitted
by `Partial<Post>`) is written through unchanged, so the persisted author
changes from "alice" to "mallory". -/
theorem c1_counterexample :
    (okPost (updatePost "p1" { authorId := some "mallory" } "alice" false
        aliceDB)).map Post.authorId = some "mallory" ∧
    alicePost.authorId = "alice" ∧ ("mallory" : String) ≠ "alice" := by
  refine ⟨rfl, rfl, by decide⟩

/-- C8: getMyPosts throws the findUniqueOrThrow NotFound error whenever no
user both has the given id and is ACTIVE. -/
theorem c8_inactive_author_throws (authorId : String) (db : DB)
    (h : ∀ u ∈ db.users, ¬(u.id = authorId ∧ u.status = UserStatus.ACTIVE)) :
    getMyPosts authorId db = .error "No User found" := by
  have hfind : db.users.find? (fun u =>
      decide (u.id = authorId) && decide (u.status = UserStatus.ACTIVE))
        = none := by
    rw [List.find?_eq_none]
    intro u hu
    simpa [decide_eq_true_eq, -not_and] using h u hu
  simp [getMyPosts, hfind]

/-- A database whose single user is not ACTIVE. -/
def blockedDB : DB :=
  { posts := [], comments := [], users := [⟨"u1", .USER, .BLOCKED⟩] }

/-- C8 witness: a BLOCKED user id makes getMyPosts throw. -/
theorem c8_inactive_author_throws_witness :
    getMyPosts "u1" blockedDB = .error "No User found" :=
  c8_inactive_author_throws "u1" blockedDB (by decide)

/-- C10: for a post id with no matching post, the view-increment update
inside getPostById fails, the transaction surfaces the error instead of a
null result, and the rolled-back database is unchanged. -/
theorem c10_missing_post_throws (postId : String) (db : DB)
    (h : ∀ p ∈ db.posts, p.id ≠ postId) :
    (getPostByIdRun postId db).1 = .error "Record to update not found." ∧
    (getPostByIdRun postId db).2 = db := by
  have hany : db.posts.any (fun p => decide (p.id = postId)) = false := by
    rw [List.any_eq_false]
    intro p hp
    simpa using h p hp
  simp [getPostByIdRun, getPostById, incrementViews, hany]

/-- C10 witness: an absent id on `aliceDB` throws and leaves the state. -/
theorem c10_missing_post_throws_witness :
    (getPostByIdRun "nope" aliceDB).1 = .error "Record to update not found." ∧
    (getPostByIdRun "nope" aliceDB).2 = aliceDB :=
  c10_missing_post_throws "nope" aliceDB (by decide)

theorem updatePost_ok (postId : String) (data : PostUpdateInput)
    (caller : String) (isAdmin : Bool) (db : DB) (p : Post)
    (hfind : db.posts.find? (fun q => decide (q.id = postId)) = some p)
    (hcond : (!isAdmin && !decide (p.authorId = caller)) = false) :
    updatePost postId data caller isAdmin db =
      .ok (applyUpdate
          (if !isAdmin then { data with isFeatured := none } else data) p,
        { db with
          posts := db.posts.map (fun q =>
            if q.id = p.id then
              applyUpdate
                (if !isAdmin then { data with isFeatured := none } else data)
                q
            else q) }) := by
  simp [updatePost, hfind, hcond]

theorem deletePost_ok (postId : String) (caller : String) (isAdmin : Bool)
    (db : DB) (p : Post)
    (hfind : db.posts.find? (fun q => decide (q.id = postId)) = some p)
    (hcond : (!isAdmin && !decide (p.authorId = caller)) = false) :
    deletePost postId caller isAdmin db =
      .ok (p,
        { db with
          posts := db.posts.filter (fun q => !decide (q.id = postId)) }) := by
  simp [deletePost, hfind, hcond]

/-- C6: for an existing post, updatePost and deletePost both throw the
ownership error when the caller is neither the post's author nor an admin,
and both return successfully when the caller is the author or an admin. -/
theorem c6_owner_or_admin (postId : String) (data : PostUpdateInput)
    (caller : String) (isAdmin : Bool) (db : DB) (p : Post)
    (hfind : db.posts.find? (fun q => decide (q.id = postId)) = some p) :
    (isAdmin = false → p.authorId ≠ caller →
      updatePost postId data caller isAdmin db
          = .error "You are not the owner/creator of the post!" ∧
      deletePost postId caller isAdmin db
          = .error "You are not the owner/creator of the post!") ∧
    ((isAdmin = true ∨ p.authorId = caller) →
      (∃ r db1, updatePost postId data caller isAdmin db = .ok (r, db1)) ∧
      (∃ r db1, deletePost postId caller isAdmin db = .ok (r, db1))) := by
  constructor
  · intro hadm hne
    subst hadm
    constructor
    · simp [updatePost, hfind, hne]
    · simp [deletePost, hfind, hne]
  · intro hok
    have hcond : (!isAdmin && !decide (p.authorId = caller)) = false := by
      rcases hok with h | h
      · subst h; rfl
      · simp [h]
    exact ⟨⟨_, _, updatePost_ok postId data caller isAdmin db p hfind hcond⟩,
      ⟨_, _, deletePost_ok postId caller isAdmin db p hfind hcond⟩⟩

/-- C6 witness: on `aliceDB`, a stranger "bob" is rejected and the author
"alice" succeeds, for both updatePost and deletePost. -/
theorem c6_owner_or_admin_witness :
    ((false = true → alicePost.authorId ≠ "bob" →
      updatePost "p1" {} "bob" false aliceDB
          = .error "You are not the owner/creator of the post!" ∧
      deletePost "p1" "bob" false aliceDB
          = .error "You are not the owner/creator of the post!") ∧
    ((false = true ∨ alicePost.authorId = "bob") →
      (∃ r db1, updatePost "p1" {} "bob" false aliceDB = .ok (r, db1)) ∧
      (∃ r db1, deletePost "p1" "bob" false aliceDB = .ok (r, db1)))) ∧
    ((false = false → alicePost.authorId ≠ "alice" →
      updatePost "p1" {} "alice" false aliceDB
          = .error "You are not the owner/creator of the post!" ∧
      deletePost "p1" "alice" false aliceDB
          = .error "You are not the owner/creator of the post!") ∧
    ((false = true ∨ alicePost.authorId = "alice") →
      (∃ r db1, updatePost "p1" {} "alice" false aliceDB = .ok (r, db1)) ∧
      (∃ r db1, deletePost "p1" "alice" false aliceDB = .ok (r, db1)))) := by
  constructor
  · have h := c6_owner_or_admin "p1" {} "bob" false aliceDB alicePost (by decide)
    exact ⟨fun hadm => absurd hadm (by decide), h.2⟩
  · exact (c6_owner_or_admin "p1" {} "alice" false aliceDB alicePost
      (by decide)).imp (fun h hadm => h rfl) id

/-- C7: a non-admin author's updatePost succeeds, the persisted row keeps
the old isFeatured value even when the payload sets one, and every other
payload field is applied (absent fields keep their old values). -/
theorem c7_isFeatured_dropped (postId : String) (data : PostUpdateInput)
    (caller : String) (db : DB) (p : Post)
    (hfind : db.posts.find? (fun q => decide (q.id = postId)) = some p)
    (hauthor : p.authorId = caller) :
    ∃ r db1, updatePost postId data caller false db = .ok (r, db1) ∧
      r ∈ db1.posts ∧
      r.isFeatured = p.isFeatured ∧
      r.id = data.id.getD p.id ∧
      r.title = data.title.getD p.title ∧
      r.content = data.content.getD p.content ∧
      r.tags = data.tags.getD p.tags ∧
      r.status = data.status.getD p.status ∧
      r.views = data.views.getD p.views ∧
      r.authorId = data.authorId.getD p.authorId ∧
      r.createdAt = data.createdAt.getD p.createdAt ∧
      r.updatedAt = data.updatedAt.getD p.updatedAt := by
  have hcond : (!(false : Bool) && !decide (p.authorId = caller)) = false := by
    simp [hauthor]
  refine ⟨_, _, updatePost_ok postId data caller false db p hfind hcond,
    ?_, by simp [applyUpdate], by simp [applyUpdate], by simp [applyUpdate],
    by simp [applyUpdate], by simp [applyUpdate], by simp [applyUpdate],
    by simp [applyUpdate], by simp [applyUpdate], by simp [applyUpdate],
    by simp [applyUpdate]⟩
  exact List.mem_map.2 ⟨p, List.mem_of_find?_eq_some hfind, by simp⟩

/-- C7 witness: alice updates her post with a payload that flips
isFeatured and retitles it; the row keeps `isFeatured = false` and takes
the new title. -/
theorem c7_isFeatured_dropped_witness :
    ∃ r db1,
      updatePost "p1" { title := some "New", isFeatured := some true }
          "alice" false aliceDB = .ok (r, db1) ∧
      r ∈ db1.posts ∧
      r.isFeatured = alicePost.isFeatured ∧
      r.id = (none : Option String).getD alicePost.id ∧
      r.title = (some "New").getD alicePost.title ∧
      r.content = (none : Option String).getD alicePost.content ∧
      r.tags = (none : Option (List String)).getD alicePost.tags ∧
      r.status = (none : Option PostStatus).getD alicePost.status ∧
      r.views = (none : Option Nat).getD alicePost.views ∧
      r.authorId = (none : Option String).getD alicePost.authorId ∧
      r.createdAt = (none : Option Nat).getD alicePost.createdAt ∧
      r.updatedAt = (none : Option Nat).getD alicePost.updatedAt :=
  c7_isFeatured_dropped "p1" { title := some "New", isFeatured := some true }
    "alice" aliceDB alicePost (by decide) (by decide)

theorem find?_map_inc (pid : String) :
    ∀ (l : List Post) (p : Post),
      l.find? (fun q => decide (q.id = pid)) = some p →
      (l.map (fun q =>
          if q.id = pid then { q with views := q.views + 1 } else q)).find?
          (fun q => decide (q.id = pid)) =
        some { p with views := p.views + 1 }
  | [], p, h => by simp at h
  | a :: l, p, h => by
    by_cases ha : a.id = pid
    · rw [List.find?_cons_of_pos _ (by simpa using ha)] at h
      injection h with h
      subst h
      rw [List.map_cons, if_pos ha,
        List.find?_cons_of_pos _ (by simpa using ha)]
    · rw [List.find?_cons_of_neg _ (by simpa using ha)] at h
      rw [List.map_cons, if_neg ha,
        List.find?_cons_of_neg _ (by simpa using ha)]
      exact find?_map_inc pid l p h

/-- C2: for an existing post, getPostById succeeds, the returned post
carries the already-incremented view count `views + 1`, the stored row is
that incremented post, and every other post is untouched — all inside the
one transaction step. -/
theorem c2_view_increment (postId : String) (db : DB) (p : Post)
    (hfind : db.posts.find? (fun q => decide (q.id = postId)) = some p) :
    ∃ detail db1, getPostById postId db = .ok (detail, db1) ∧
      detail.post = { p with views := p.views + 1 } ∧
      detail.post.views = p.views + 1 ∧
      db1.posts.find? (fun q => decide (q.id = postId))
          = some { p with views := p.views + 1 } ∧
      ∀ q ∈ db.posts, q.id ≠ postId → q ∈ db1.posts := by
  have hmem := List.mem_of_find?_eq_some hfind
  have hp := List.find?_some hfind
  have hany : db.posts.any (fun q => decide (q.id = postId)) = true :=
    List.any_eq_true.2 ⟨p, hmem, hp⟩
  have hfind1 := find?_map_inc postId db.posts p hfind
  refine ⟨{ post := { p with views := p.views + 1 }
            comments := commentTree postId db.comments
            commentsCount :=
              (db.comments.filter (fun c => decide (c.postId = postId))).length },
    { db with posts := db.posts.map (fun q =>
        if q.id = postId then { q with views := q.views + 1 } else q) },
    ?_, rfl, rfl, hfind1, ?_⟩
  · simp [getPostById, incrementViews, hany, hfind1]
  · intro q hq hne
    exact List.mem_map.2 ⟨q, hq, by rw [if_neg hne]⟩

/-- C2 witness: fetching `alicePost` (5 views) returns it with 6 views and
stores 6 views. -/
theorem c2_view_increment_witness :
    ∃ detail db1, getPostById "p1" aliceDB = .ok (detail, db1) ∧
      detail.post = { alicePost with views := alicePost.views + 1 } ∧
      detail.post.views = alicePost.views + 1 ∧
      db1.posts.find? (fun q => decide (q.id = "p1"))
          = some { alicePost with views := alicePost.views + 1 } ∧
      ∀ q ∈ aliceDB.posts, q.id ≠ "p1" → q ∈ db1.posts :=
  c2_view_increment "p1" aliceDB alicePost (by decide)

/-- C5: with a positive limit, getAllPost's totalPages is the ceiling of
total / limit (total being the count over the identical filter), hence 0
when total is 0. -/
theorem c5_totalPages (q : GetAllPostParams) (db : DB)
    (hlimit : 0 < q.limit) :
    (getAllPost q db).pagination.totalPages
        = (getAllPost q db).pagination.total ⌈/⌉ q.limit ∧
    ((getAllPost q db).pagination.total = 0 →
      (getAllPost q db).pagination.totalPages = 0) := by
  have h1 : (getAllPost q db).pagination.totalPages
      = jsCeilDiv (db.posts.filter (postWhere q)).length q.limit := rfl
  have h2 : (getAllPost q db).pagination.total
      = (db.posts.filter (postWhere q)).length := rfl
  constructor
  · rw [h1, h2, jsCeilDiv, Nat.ceilDiv_eq_add_pred_div]
  · intro h0
    rw [h2] at h0
    rw [h1, h0, jsCeilDiv]
    simpa using Nat.div_eq_of_lt (Nat.sub_lt hlimit Nat.one_pos)

/-- Query parameters requesting everything: no active filter, first page
of up to ten posts, newest first. -/
def plainQuery : GetAllPostParams :=
  { search := none, tags := [], isFeatured := none, status := none
    authorId := none, page := 1, limit := 10, skip := 0
    sortBy := "createdAt", sortOrder := "desc" }

/-- C5 witness: the pagination identity on `aliceDB` with limit 10. -/
theorem c5_totalPages_witness :
    (getAllPost plainQuery aliceDB).pagination.totalPages
        = (getAllPost plainQuery aliceDB).pagination.total ⌈/⌉
            plainQuery.limit ∧
    ((getAllPost plainQuery aliceDB).pagination.total = 0 →
      (getAllPost plainQuery aliceDB).pagination.totalPages = 0) :=
  c5_totalPages plainQuery aliceDB (by decide)

theorem mem_getAllPost_data (q : GetAllPostParams) (db : DB) (p : Post)
    (hskip : q.skip = 0) (hlimit : db.posts.length ≤ q.limit) :
    p ∈ (getAllPost q db).data ↔ p ∈ db.posts ∧ postWhere q p = true := by
  have hlen :
      ((db.posts.filter (postWhere q)).mergeSort
          (postLe q.sortBy q.sortOrder)).length ≤ q.limit :=
    le_trans
      (le_of_eq (List.mergeSort_perm _ _).length_eq)
      (le_trans (List.length_filter_le _ _) hlimit)
  simp only [getAllPost, hskip, List.drop_zero]
  rw [List.take_of_length_le hlen, List.mem_mergeSort, List.mem_filter]

/-- C4: with the tag filter as the only active condition (large enough
page), a post is returned iff every requested tag is in its tag set. -/
theorem c4_tags_all_of (q : GetAllPostParams) (db : DB) (p : Post)
    (hsearch : q.search = none) (hfeat : q.isFeatured = none)
    (hstat : q.status = none) (hauth : q.authorId = none)
    (htags : q.tags ≠ []) (hskip : q.skip = 0)
    (hlimit : db.posts.length ≤ q.limit) :
    p ∈ (getAllPost q db).data ↔
      p ∈ db.posts ∧ ∀ t ∈ q.tags, t ∈ p.tags := by
  rw [mem_getAllPost_data q db p hskip hlimit]
  have hlen : 0 < q.tags.length := List.length_pos.2 htags
  have hw : postWhere q p = q.tags.all (fun t => decide (t ∈ p.tags)) := by
    simp [postWhere, andConditions, hsearch, hfeat, hstat, hauth, hlen]
  rw [hw, List.all_eq_true]
  simp

/-- A post tagged exactly "a". -/
def onlyAPost : Post :=
  { alicePost with id := "p3", tags := ["a"] }

/-- Two posts: one tagged both "a" and "b", one tagged only "a". -/
def taggedDB : DB := { posts := [alicePost, onlyAPost], comments := [], users := [] }

/-- The query requesting posts carrying both tags "a" and "b". -/
def tagQuery : GetAllPostParams := { plainQuery with tags := ["a", "b"] }

/-- C4 witness: requesting tags ["a", "b"] keeps `alicePost` (tagged a and
b) iff both tags are present — and indeed excludes the post tagged only
"a". -/
theorem c4_tags_all_of_witness :
    (alicePost ∈ (getAllPost tagQuery taggedDB).data ↔
      alicePost ∈ taggedDB.posts ∧ ∀ t ∈ tagQuery.tags, t ∈ alicePost.tags) ∧
    (onlyAPost ∈ (getAllPost tagQuery taggedDB).data ↔
      onlyAPost ∈ taggedDB.posts ∧ ∀ t ∈ tagQuery.tags, t ∈ onlyAPost.tags) :=
  ⟨c4_tags_all_of tagQuery taggedDB alicePost rfl rfl rfl rfl (by decide)
      rfl (by decide),
    c4_tags_all_of tagQuery taggedDB onlyAPost rfl rfl rfl rfl (by decide)
      rfl (by decide)⟩

/-- C9: with a non-empty search string as the only active condition (large
enough page), a post is returned iff the search string occurs
case-insensitively in its title, occurs case-insensitively in its content,
or is literally one of its tags. -/
theorem c9_search_or (q : GetAllPostParams) (db : DB) (p : Post)
    (s : String) (hsearch : q.search = some s) (hs : s ≠ "")
    (htags : q.tags = []) (hfeat : q.isFeatured = none)
    (hstat : q.status = none) (hauth : q.authorId = none)
    (hskip : q.skip = 0) (hlimit : db.posts.length ≤ q.limit) :
    p ∈ (getAllPost q db).data ↔
      p ∈ db.posts ∧
        (containsCI p.title s = true ∨ containsCI p.content s = true ∨
          s ∈ p.tags) := by
  rw [mem_getAllPost_data q db p hskip hlimit]
  have hne : s.isEmpty = false := by
    rcases hb : s.isEmpty with _ | _
    · rfl
    · exact absurd ((String.isEmpty_iff s).1 hb) hs
  have hw : postWhere q p = searchCond s p := by
    simp [postWhere, andConditions, hsearch, htags, hfeat, hstat, hauth, hne]
  rw [hw, searchCond]
  simp [or_assoc]

/-- The query searching for the string "hell". -/
def searchQuery : GetAllPostParams := { plainQuery with search := some "hell" }

/-- C9 witness: searching "hell" matches `alicePost` (title "Hello",
case-insensitively) and the iff also holds for `onlyAPost`. -/
theorem c9_search_or_witness :
    (alicePost ∈ (getAllPost searchQuery taggedDB).data ↔
      alicePost ∈ taggedDB.posts ∧
        (containsCI alicePost.title "hell" = true ∨
          containsCI alicePost.content "hell" = true ∨
          "hell" ∈ alicePost.tags)) ∧
    (onlyAPost ∈ (getAllPost searchQuery taggedDB).data ↔
      onlyAPost ∈ taggedDB.posts ∧
        (containsCI onlyAPost.title "hell" = true ∨
          containsCI onlyAPost.content "hell" = true ∨
          "hell" ∈ onlyAPost.tags)) :=
  ⟨c9_search_or searchQuery taggedDB alicePost "hell" rfl (by decide) rfl
      rfl rfl rfl rfl (by decide),
    c9_search_or searchQuery taggedDB onlyAPost "hell" rfl (by decide) rfl
      rfl rfl rfl rfl (by decide)⟩

theorem mem_approvedReplies (pid : String) (cs : List Comment) (c : Comment) :
    c ∈ approvedReplies pid cs ↔
      c ∈ cs ∧ c.parentId = some pid ∧ c.status = CommentStatus.APPROVED := by
  simp [approvedReplies, List.mem_mergeSort, List.mem_filter, and_assoc]

theorem mem_topComments (pid : String) (cs : List Comment) (t : Comment) :
    t ∈ topComments pid cs ↔
      t ∈ cs ∧ t.postId = pid ∧ t.parentId = none ∧
        t.status = CommentStatus.APPROVED := by
  simp [topComments, List.mem_mergeSort, List.mem_filter, and_assoc]

theorem mem_treeNodes_cases (pid : String) (cs : List Comment) (c : Comment)
    (hc : c ∈ treeNodes (commentTree pid cs)) :
    c ∈ topComments pid cs ∨
      (∃ t ∈ topComments pid cs, c ∈ approvedReplies t.id cs) ∨
      (∃ t ∈ topComments pid cs, ∃ r ∈ approvedReplies t.id cs,
        c ∈ approvedReplies r.id cs) := by
  simp only [treeNodes, commentTree, List.mem_flatMap, List.mem_map] at hc
  obtain ⟨tn, ⟨t, ht, rfl⟩, hc⟩ := hc
  rcases List.mem_cons.1 hc with rfl | hc
  · exact Or.inl ht
  · simp only [List.mem_flatMap, List.mem_map] at hc
    obtain ⟨rn, ⟨r, hr, rfl⟩, hc⟩ := hc
    rcases List.mem_cons.1 hc with rfl | hc
    · exact Or.inr (Or.inl ⟨t, ht, hr⟩)
    · exact Or.inr (Or.inr ⟨t, ht, r, hr, hc⟩)

theorem treeNodes_approved (pid : String) (cs : List Comment) :
    ∀ c ∈ treeNodes (commentTree pid cs),
      c.status = CommentStatus.APPROVED := by
  intro c hc
  rcases mem_treeNodes_cases pid cs c hc with h | ⟨t, ht, h⟩ | ⟨t, ht, r, hr, h⟩
  · exact ((mem_topComments pid cs c).1 h).2.2.2
  · exact ((mem_approvedReplies t.id cs c).1 h).2.2
  · exact ((mem_approvedReplies r.id cs c).1 h).2.2

theorem commentTree_filters (pid : String) (cs : List Comment)
    (huniq : ∀ a ∈ cs, ∀ b ∈ cs, a.id = b.id → a = b) :
    (∀ c ∈ treeNodes (commentTree pid cs),
      c.status = CommentStatus.APPROVED) ∧
    (∀ c ∈ cs, c.status ≠ CommentStatus.APPROVED →
      c ∉ treeNodes (commentTree pid cs) ∧
      ∀ d ∈ cs, d.parentId = some c.id →
        d ∉ treeNodes (commentTree pid cs)) := by
  refine ⟨treeNodes_approved pid cs, ?_⟩
  intro c hcmem hne
  constructor
  · exact fun hmem => hne (treeNodes_approved pid cs c hmem)
  · intro d hdmem hpar hdtree
    rcases mem_treeNodes_cases pid cs d hdtree with h | ⟨t, ht, h⟩ |
      ⟨t, ht, r, hr, h⟩
    · have := ((mem_topComments pid cs d).1 h).2.2.1
      rw [hpar] at this
      exact Option.noConfusion this
    · have hobj := (mem_topComments pid cs t).1 ht
      have hpid := ((mem_approvedReplies t.id cs d).1 h).2.1
      rw [hpar] at hpid
      have htc : t = c :=
        huniq t hobj.1 c hcmem (Option.some.injEq _ _ ▸ hpid).symm
      exact hne (htc ▸ hobj.2.2.2)
    · have hrobj := (mem_approvedReplies t.id cs r).1 hr
      have hpid := ((mem_approvedReplies r.id cs d).1 h).2.1
      rw [hpar] at hpid
      have hrc : r = c :=
        huniq r hrobj.1 c hcmem (Option.some.injEq _ _ ▸ hpid).symm
      exact hne (hrc ▸ hrobj.2.2)

theorem descendant_parent_some {cs : List Comment} {d c : Comment}
    (h : Descendant cs d c) : ∃ x, d.parentId = some x := by
  cases h with
  | direct d c hd hp => exact ⟨c.id, hp⟩
  | step d e c hd he hp hrest => exact ⟨e.id, hp⟩

theorem commentTree_no_descendant (pid : String) (cs : List Comment)
    (huniq : ∀ a ∈ cs, ∀ b ∈ cs, a.id = b.id → a = b) :
    ∀ c ∈ cs, c.status ≠ CommentStatus.APPROVED →
      ∀ d, Descendant cs d c → d ∉ treeNodes (commentTree pid cs) := by
  intro c hcmem hne d hdesc hdtree
  rcases mem_treeNodes_cases pid cs d hdtree with h | ⟨t, ht, h⟩ |
    ⟨t, ht, r, hr, h⟩
  · -- a top-level node has no parent, but a descendant always has one
    have hnone := ((mem_topComments pid cs d).1 h).2.2.1
    obtain ⟨x, hx⟩ := descendant_parent_some hdesc
    rw [hnone] at hx
    exact Option.noConfusion hx
  · -- d sits under the approved top-level comment t
    have htop := (mem_topComments pid cs t).1 ht
    have hdp := ((mem_approvedReplies t.id cs d).1 h).2.1
    cases hdesc with
    | direct _ _ hd hp =>
      rw [hdp] at hp
      have htc : t = c := huniq t htop.1 c hcmem (Option.some.injEq _ _ ▸ hp)
      exact hne (htc ▸ htop.2.2.2)
    | step _ e _ hd he hp hrest =>
      rw [hdp] at hp
      have het : e = t :=
        huniq e he t htop.1 (Option.some.injEq _ _ ▸ hp).symm
      rw [het] at hrest
      obtain ⟨x, hx⟩ := descendant_parent_some hrest
      rw [htop.2.2.1] at hx
      exact Option.noConfusion hx
  · -- d sits under the approved reply r of the approved top-level t
    have htop := (mem_topComments pid cs t).1 ht
    have hrobj := (mem_approvedReplies t.id cs r).1 hr
    have hdp := ((mem_approvedReplies r.id cs d).1 h).2.1
    cases hdesc with
    | direct _ _ hd hp =>
      rw [hdp] at hp
      have hrc : r = c := huniq r hrobj.1 c hcmem (Option.some.injEq _ _ ▸ hp)
      exact hne (hrc ▸ hrobj.2.2)
    | step _ e _ hd he hp hrest =>
      rw [hdp] at hp
      have her : e = r :=
        huniq e he r hrobj.1 (Option.some.injEq _ _ ▸ hp).symm
      rw [her] at hrest
      have hrp := hrobj.2.1
      cases hrest with
      | direct _ _ hd2 hp2 =>
        rw [hrp] at hp2
        have htc : t = c :=
          huniq t htop.1 c hcmem (Option.some.injEq _ _ ▸ hp2)
        exact hne (htc ▸ htop.2.2.2)
      | step _ e2 _ hd2 he2 hp2 hrest2 =>
        rw [hrp] at hp2
        have het : e2 = t :=
          huniq e2 he2 t htop.1 (Option.some.injEq _ _ ▸ hp2).symm
        rw [het] at hrest2
        obtain ⟨x, hx⟩ := descendant_parent_some hrest2
        rw [htop.2.2.1] at hx
        exact Option.noConfusion hx

/-- C3: in the comment tree getPostById returns, every node at each of the
three nesting levels is APPROVED; consequently a non-approved comment never
appears, and (with unique comment ids) neither does any comment of its
whole subtree — direct children and deeper parentId-chain descendants —
even when those descendants are themselves approved. -/
theorem c3_tree_approved_only (postId : String) (db : DB)
    (detail : PostDetail) (db1 : DB)
    (huniq : ∀ a ∈ db.comments, ∀ b ∈ db.comments, a.id = b.id → a = b)
    (hok : getPostById postId db = .ok (detail, db1)) :
    (∀ c ∈ treeNodes detail.comments,
      c.status = CommentStatus.APPROVED) ∧
    (∀ c ∈ db.comments, c.status ≠ CommentStatus.APPROVED →
      c ∉ treeNodes detail.comments ∧
      (∀ d ∈ db.comments, d.parentId = some c.id →
        d ∉ treeNodes detail.comments) ∧
      ∀ d, Descendant db.comments d c → d ∉ treeNodes detail.comments) := by
  have hcomments : detail.comments = commentTree postId db.comments := by
    unfold getPostById at hok
    split at hok
    next => exact absurd hok (by simp)
    next db2 hinc =>
      have hdb2 : db2.comments = db.comments := by
        unfold incrementViews at hinc
        split at hinc
        · injection hinc with hinc
          subst hinc
          rfl
        · exact absurd hinc (by simp)
      split at hok
      next => exact absurd hok (by simp)
      next postData hfind2 =>
        simp only [Except.ok.injEq, Prod.mk.injEq] at hok
        rw [← hok.1]
        simp [hdb2]
  rw [hcomments]
  have h1 := commentTree_filters postId db.comments huniq
  have h2 := commentTree_no_descendant postId db.comments huniq
  exact ⟨h1.1, fun c hc hne =>
    ⟨(h1.2 c hc hne).1, (h1.2 c hc hne).2, h2 c hc hne⟩⟩

/-- Comment fixture: approved and pending top-level comments, approved
replies under each, approved / rejected replies at the third level, and an
approved grandchild whose chain leads up to the pending top comment. -/
def treeDB : DB :=
  { posts := [alicePost]
    comments :=
      [⟨"c1", "top ok", .APPROVED, "p1", "bob", none, 1⟩,
       ⟨"c2", "top pending", .PENDING, "p1", "bob", none, 2⟩,
       ⟨"c3", "reply ok", .APPROVED, "p1", "eve", some "c1", 3⟩,
       ⟨"c4", "orphaned ok reply", .APPROVED, "p1", "eve", some "c2", 4⟩,
       ⟨"c5", "deep ok", .APPROVED, "p1", "eve", some "c3", 5⟩,
       ⟨"c6", "deep rejected", .REJECT, "p1", "eve", some "c3", 6⟩,
       ⟨"c7", "ok grandchild of pending", .APPROVED, "p1", "eve",
         some "c4", 7⟩]
    users := [] }

/-- C3 witness: the filtering statement instantiated on `treeDB`, where
getPostById succeeds concretely. -/
theorem c3_tree_approved_only_witness :
    (∀ c ∈ treeNodes (commentTree "p1" treeDB.comments),
      c.status = CommentStatus.APPROVED) ∧
    (∀ c ∈ treeDB.comments, c.status ≠ CommentStatus.APPROVED →
      c ∉ treeNodes (commentTree "p1" treeDB.comments) ∧
      (∀ d ∈ treeDB.comments, d.parentId = some c.id →
        d ∉ treeNodes (commentTree "p1" treeDB.comments)) ∧
      ∀ d, Descendant treeDB.comments d c →
        d ∉ treeNodes (commentTree "p1" treeDB.comments)) :=
  c3_tree_approved_only "p1" treeDB
    { post := { alicePost with views := alicePost.views + 1 }
      comments := commentTree "p1" treeDB.comments
      commentsCount :=
        (treeDB.comments.filter (fun c => decide (c.postId = "p1"))).length }
    { treeDB with
      posts := [{ alicePost with views := alicePost.views + 1 }] }
    (by decide) rfl

end BlogApp
